import Mathlib

/-!
Verification of the `gclzap` log-record pipeline (a zap → Google Cloud
Logging backend adapter) against its specification.

The Go sources are shallowly embedded:
* `zapcore.Level` (an `int8` enumeration) is modelled as `Int`, with the
  named constants of zapcore (`DebugLevel = -1`, …, `InvalidLevel = 6`).
* `logging.Severity` (the sink's vocabulary) is an inductive type.
* The encoder configured by `newEncoder` is zapcore's JSON encoder with the
  key names fixed in `encoder.go`; it is modelled by the `Encoder` structure:
  a configuration, the buffered sticky-field context (fields added by
  `With`/`addFields`), and an abstract error channel `fail` standing for the
  `EncodeEntry` error return of the `zapcore.Encoder` interface (the
  interface may report an encoding error; the model keeps that possibility).
  The panic of `encodeLevel` on the invalid sentinel is modelled by
  `Option`: `none` is an abrupt abort, not an error value.
* The sink (`*logging.Logger`) is opaque: `Logger.Log` enqueues and returns
  nothing, `Logger.Flush` returns an error or succeeds. A `Sink` records
  its flush behaviour, and `Core.Write` returns the list of sink operations
  it performed, in order, so that enqueue/flush counts are provable.
-/

namespace Gclzap

/-- zapcore.DebugLevel (int8 value -1). -/
def debugLevel : Int := -1

/-- zapcore.InfoLevel (int8 value 0). -/
def infoLevel : Int := 0

/-- zapcore.WarnLevel (int8 value 1). -/
def warnLevel : Int := 1

/-- zapcore.ErrorLevel (int8 value 2). -/
def errorLevel : Int := 2

/-- zapcore.DPanicLevel (int8 value 3). -/
def dpanicLevel : Int := 3

/-- zapcore.PanicLevel (int8 value 4). -/
def panicLevel : Int := 4

/-- zapcore.FatalLevel (int8 value 5). -/
def fatalLevel : Int := 5

/-- zapcore.InvalidLevel (int8 value 6, the sentinel one past FatalLevel). -/
def invalidLevel : Int := 6

/-- The sink's native severity vocabulary, `cloud.google.com/go/logging.Severity`
(only the members this package mentions). -/
inductive Severity where
  | default
  | debug
  | info
  | warning
  | error
  | critical
  | alert
  | emergency
deriving DecidableEq, Repr

/-- Embeds `toSeverity` from `config.go` / `encoder.go` (the two copies are
textually identical): a switch on the zapcore level returning the Google
Cloud Logging severity, with a `Default` fallback for every other value. -/
def toSeverity (l : Int) : Severity :=
  if l = debugLevel then Severity.debug
  else if l = infoLevel then Severity.info
  else if l = warnLevel then Severity.warning
  else if l = errorLevel then Severity.error
  else if l = dpanicLevel then Severity.critical
  else if l = panicLevel then Severity.critical
  else if l = fatalLevel then Severity.critical
  else Severity.default

/-- Embeds the level encoder returned by `encodeLevel` in `encoder.go`: the
switch that appends the Google-Cloud severity text for each level, panics on
`InvalidLevel` (modelled as `none`), and appends "UNKNOWN" otherwise. -/
def encodeLevel (l : Int) : Option String :=
  if l = debugLevel then some "DEBUG"
  else if l = infoLevel then some "INFO"
  else if l = warnLevel then some "WARNING"
  else if l = errorLevel then some "ERROR"
  else if l = dpanicLevel then some "CRITICAL"
  else if l = panicLevel then some "ALERT"
  else if l = fatalLevel then some "EMERGENCY"
  else if l = invalidLevel then none
  else some "UNKNOWN"

/-- C6: applying the level-to-text renderer to the invalid sentinel aborts
abruptly (the Go code panics, modelled by `none`), and on every other level
value the renderer returns normally (produces a severity text). -/
theorem encodeLevel_invalid_aborts (l : Int) (h : l ≠ invalidLevel) :
    encodeLevel invalidLevel = none ∧ (encodeLevel l).isSome = true := by
  constructor
  · decide
  · unfold encodeLevel
    split_ifs <;> simp_all

/-- Witness for C6 at the concrete level `0` (Info). -/
theorem encodeLevel_invalid_aborts_witness :
    encodeLevel invalidLevel = none ∧ (encodeLevel 0).isSome = true :=
  encodeLevel_invalid_aborts 0 (by decide)

/-- C7: `toSeverity` follows the mapping table (Debug→Debug, Info→Info,
Warn→Warning, Error→Error, DPanic/Panic/Fatal→Critical) and maps every other
level value — the invalid sentinel included — to Default. It is a total Lean
function, so it never fails on any input. -/
theorem toSeverity_total_spec (l : Int)
    (h : l ∉ ([debugLevel, infoLevel, warnLevel, errorLevel,
               dpanicLevel, panicLevel, fatalLevel] : List Int)) :
    toSeverity debugLevel = Severity.debug
    ∧ toSeverity infoLevel = Severity.info
    ∧ toSeverity warnLevel = Severity.warning
    ∧ toSeverity errorLevel = Severity.error
    ∧ toSeverity dpanicLevel = Severity.critical
    ∧ toSeverity panicLevel = Severity.critical
    ∧ toSeverity fatalLevel = Severity.critical
    ∧ toSeverity l = Severity.default := by
  simp only [List.mem_cons, List.not_mem_nil, or_false, not_or] at h
  obtain ⟨h1, h2, h3, h4, h5, h6, h7⟩ := h
  refine ⟨by decide, by decide, by decide, by decide, by decide, by decide, by decide, ?_⟩
  simp [toSeverity, h1, h2, h3, h4, h5, h6, h7]

/-- Witness for C7 at the invalid sentinel level `6`. -/
theorem toSeverity_total_spec_witness :
    toSeverity invalidLevel = Severity.default :=
  (toSeverity_total_spec invalidLevel (by decide)).2.2.2.2.2.2.2

/-- C8: the textual severity tags produced by the level-to-text renderer,
with "UNKNOWN" for every level other than the seven named ones and the
invalid sentinel; the renderer distinguishes the three critical tiers
(CRITICAL/ALERT/EMERGENCY) that `toSeverity` collapses to a single sink
severity. -/
theorem encodeLevel_table_spec (l : Int)
    (h : l ∉ ([debugLevel, infoLevel, warnLevel, errorLevel,
               dpanicLevel, panicLevel, fatalLevel, invalidLevel] : List Int)) :
    encodeLevel debugLevel = some "DEBUG"
    ∧ encodeLevel infoLevel = some "INFO"
    ∧ encodeLevel warnLevel = some "WARNING"
    ∧ encodeLevel errorLevel = some "ERROR"
    ∧ encodeLevel dpanicLevel = some "CRITICAL"
    ∧ encodeLevel panicLevel = some "ALERT"
    ∧ encodeLevel fatalLevel = some "EMERGENCY"
    ∧ encodeLevel l = some "UNKNOWN"
    ∧ encodeLevel dpanicLevel ≠ encodeLevel panicLevel
    ∧ encodeLevel panicLevel ≠ encodeLevel fatalLevel
    ∧ encodeLevel dpanicLevel ≠ encodeLevel fatalLevel
    ∧ toSeverity dpanicLevel = toSeverity panicLevel
    ∧ toSeverity panicLevel = toSeverity fatalLevel := by
  simp only [List.mem_cons, List.not_mem_nil, or_false, not_or] at h
  obtain ⟨h1, h2, h3, h4, h5, h6, h7, h8⟩ := h
  refine ⟨by decide, by decide, by decide, by decide, by decide, by decide, by decide, ?_,
          by decide, by decide, by decide, by decide, by decide⟩
  simp [encodeLevel, h1, h2, h3, h4, h5, h6, h7, h8]

/-- Witness for C8 at the concrete level `42` (an out-of-range value). -/
theorem encodeLevel_table_spec_witness :
    encodeLevel 42 = some "UNKNOWN" :=
  (encodeLevel_table_spec 42 (by decide)).2.2.2.2.2.2.2.1

/-- A structured key/value field (`zapcore.Field`); the rendered value is
abstracted to a string. -/
structure Field where
  key : String
  value : String
deriving DecidableEq, Repr

/-- A log record, `zapcore.Entry`: level, timestamp (abstract), message,
caller location (`none` when `Caller.Defined` is false), and the optional
stack trace (`""` means no stack attached, as in zapcore). -/
structure Entry where
  level : Int
  time : Nat
  message : String
  caller : Option String
  stack : String

/-- Embeds `EncoderConfig` from `encoder.go`: line ending plus the
time/duration/caller renderers (the renderers are opaque zapcore functions;
the claims never inspect their output). -/
structure EncoderConfig where
  lineEnding : String
  encodeTime : Nat → String
  encodeDuration : Nat → String
  encodeCaller : String → String

/-- Stand-in for zapcore.ISO8601TimeEncoder (external; output text opaque). -/
def iso8601TimeEncoder (t : Nat) : String := toString t

/-- Stand-in for zapcore.MillisDurationEncoder (external; output text opaque). -/
def millisDurationEncoder (d : Nat) : String := toString d

/-- Stand-in for zapcore.ShortCallerEncoder (external; output text opaque). -/
def shortCallerEncoder (c : String) : String := c

/-- Embeds `DefaultEncoderConfig` from `encoder.go`. -/
def DefaultEncoderConfig : EncoderConfig :=
  { lineEnding := "\n"
    encodeTime := iso8601TimeEncoder
    encodeDuration := millisDurationEncoder
    encodeCaller := shortCallerEncoder }

/-- The encoder built by `newEncoder`: zapcore's JSON encoder with the key
names `time`/`severity`/`caller`/`message`/`stacktrace` fixed in
`encoder.go`. `context` is the buffer of already-added sticky fields (in
insertion order), and `fail` is the abstract error channel of the
`zapcore.Encoder.EncodeEntry` interface contract (an encoding error for a
given record and field list). -/
structure Encoder where
  config : EncoderConfig
  context : List Field
  fail : Entry → List Field → Option String

/-- The JSON object `EncodeEntry` emits on success, as an ordered key/value
list, following zapcore's JSON encoder: severity text, time, caller (only
when defined), message, buffered sticky context, call-site fields, and the
stack trace (only when non-empty). -/
def Encoder.jsonObject (enc : Encoder) (sevText : String) (ent : Entry)
    (fields : List Field) : List (String × String) :=
  [("severity", sevText), ("time", enc.config.encodeTime ent.time)]
  ++ (match ent.caller with
      | some cal => [("caller", enc.config.encodeCaller cal)]
      | none => [])
  ++ [("message", ent.message)]
  ++ enc.context.map (fun f => (f.key, f.value))
  ++ fields.map (fun f => (f.key, f.value))
  ++ (if ent.stack = "" then [] else [("stacktrace", ent.stack)])

/-- `EncodeEntry` of the encoder: `none` is the abrupt abort of the level
renderer's panic on the invalid sentinel; `some (Except.error e)` is an
encoding error returned to the caller; `some (Except.ok payload)` is the
encoded JSON object. -/
def Encoder.EncodeEntry (enc : Encoder) (ent : Entry) (fields : List Field) :
    Option (Except String (List (String × String))) :=
  match enc.fail ent fields with
  | some e => some (Except.error e)
  | none =>
    match encodeLevel ent.level with
    | none => none
    | some sevText => some (Except.ok (enc.jsonObject sevText ent fields))

/-- `Encoder.Clone` of zapcore deep-copies the buffered context; in a pure
model the copy is the encoder itself. -/
def Encoder.Clone (enc : Encoder) : Encoder := enc

/-- Embeds `newEncoder` from `encoder.go`: a fresh JSON encoder with the
given configuration, an empty sticky buffer, and no injected failures (the
concrete JSON encoder never returns an error). -/
def newEncoder (config : EncoderConfig) : Encoder :=
  { config := config, context := [], fail := fun _ _ => none }

/-- Embeds `addFields` from `encoder.go`: each field's `AddTo` appends it to
the encoder's buffered context (mutation modelled functionally). -/
def addFields (enc : Encoder) (fields : List Field) : Encoder :=
  { enc with context := enc.context ++ fields }

/-- The opaque sink handle (`*logging.Logger`): `Log` enqueues and returns
nothing; `Flush` returns `flushErr` (an error, or `none` for success). -/
structure Sink where
  flushErr : Option String

/-- A sink entry (`logging.Entry`): the timestamp, severity and payload that
`Core.Write` hands to `Logger.Log`. -/
structure LogEntry where
  timestamp : Nat
  severity : Severity
  payload : List (String × String)

/-- One sink operation performed by the core: an enqueue (`Logger.Log`) or a
flush (`Logger.Flush`). -/
inductive SinkOp where
  | log (e : LogEntry)
  | flush

/-- Embeds the `Core` struct from `encoder.go`: the sink handle, the
encoder, and the level enabler. The enabler supplied by `New` is always a
plain `zapcore.Level`, whose `Enabled(lvl)` is `lvl >= level`, so it is
modelled as that level. -/
structure Core where
  out : Sink
  enc : Encoder
  levelEnabler : Int

/-- Embeds `newCore` from `encoder.go`. -/
def newCore (out : Sink) (config : EncoderConfig) (level : Int) : Core :=
  { out := out, enc := newEncoder config, levelEnabler := level }

/-- Embeds `Core.Level`: `zapcore.LevelOf` of a plain level is the level. -/
def Core.Level (c : Core) : Int := c.levelEnabler

/-- Embeds `Core.Enabled` from `encoder.go`: delegates to the enabler;
`zapcore.Level.Enabled(lvl)` is `lvl >= l`. -/
def Core.Enabled (c : Core) (lvl : Int) : Bool := decide (c.levelEnabler ≤ lvl)

/-- Embeds `Core.clone` from `encoder.go`: same enabler and sink handle,
cloned encoder. -/
def Core.clone (c : Core) : Core :=
  { levelEnabler := c.levelEnabler, enc := c.enc.Clone, out := c.out }

/-- Embeds `Core.With` from `encoder.go`: clone, then add the fields to the
clone's encoder. -/
def Core.With (c : Core) (fields : List Field) : Core :=
  let cl := c.clone
  { cl with enc := addFields cl.enc fields }

/-- A `*zapcore.CheckedEntry`, abstracted to the list of cores added to it
(`AddCore` appends; entry binding and nil-creation are not needed by the
claims). -/
abbrev CheckedEntry := List Core

/-- `CheckedEntry.AddCore`: record that this core will write the entry. -/
def CheckedEntry.AddCore (ce : CheckedEntry) (_ent : Entry) (c : Core) :
    CheckedEntry := ce ++ [c]

/-- Embeds `Core.Check` from `encoder.go`: add the core when the entry's
level is enabled, otherwise return the checked entry unchanged. -/
def Core.Check (c : Core) (ent : Entry) (ce : CheckedEntry) : CheckedEntry :=
  if c.Enabled ent.level then ce.AddCore ent c else ce

/-- Embeds `Core.Sync` from `encoder.go`: flush the sink and return its
error. -/
def Core.Sync (c : Core) : Except String Unit :=
  match c.out.flushErr with
  | some e => Except.error e
  | none => Except.ok ()

/-- Embeds `Core.Write` from `encoder.go`. The result is `none` when the
encoder aborted (invalid-level panic), otherwise the returned error value
together with the ordered list of sink operations performed: encode; on
encode error return it with no sink contact; otherwise enqueue a
`logging.Entry` built with the package-level `toSeverity`, then, when the
level is strictly above Error, flush (via `Sync`) and propagate its error. -/
def Core.Write (c : Core) (ent : Entry) (fields : List Field) :
    Option (Except String Unit × List SinkOp) :=
  match c.enc.EncodeEntry ent fields with
  | none => none
  | some (Except.error e) => some (Except.error e, [])
  | some (Except.ok payload) =>
    let entry : LogEntry :=
      { timestamp := ent.time, severity := toSeverity ent.level, payload := payload }
    if errorLevel < ent.level then
      match c.Sync with
      | Except.error e => some (Except.error e, [SinkOp.log entry, SinkOp.flush])
      | Except.ok _ => some (Except.ok (), [SinkOp.log entry, SinkOp.flush])
    else
      some (Except.ok (), [SinkOp.log entry])

/-- Embeds `Config` from `config.go`: encoder options, minimum level, and
the level-to-severity mapping function. -/
structure Config where
  encoderConfig : EncoderConfig
  level : Int
  levelToSeverity : Int → Severity

/-- Embeds `NewConfig` from `config.go`. -/
def NewConfig (encoderConfig : EncoderConfig) (level : Int)
    (levelToSeverity : Int → Severity) : Config :=
  { encoderConfig := encoderConfig, level := level, levelToSeverity := levelToSeverity }

/-- Embeds `NewProductionConfig` from `config.go`. -/
def NewProductionConfig : Config :=
  { encoderConfig := DefaultEncoderConfig
    level := infoLevel
    levelToSeverity := toSeverity }

/-- Embeds `NewDevelopmentConfig` from `config.go`. -/
def NewDevelopmentConfig : Config :=
  { encoderConfig := DefaultEncoderConfig
    level := debugLevel
    levelToSeverity := toSeverity }

/-- Embeds `New` from `logger.go`: builds the core from the config's
encoder options and level (`zap.New` merely wraps the core, so the logger is
identified with its core). Note the config's `levelToSeverity` field is not
passed on. -/
def New (out : Sink) (config : Config) : Core :=
  newCore out config.encoderConfig config.level

/-- Embeds `Config.Build` from `config.go`. -/
def Config.Build (c : Config) (logger : Sink) : Core := New logger c

/-- Embeds `NewProduction` from `logger.go`. -/
def NewProduction (logger : Sink) : Core := NewProductionConfig.Build logger

/-- Embeds `NewDevelopment` from `logger.go` — note its body builds from
`NewProductionConfig`, exactly as written in the source. -/
def NewDevelopment (logger : Sink) : Core := NewProductionConfig.Build logger

/-- The key names `newEncoder` reserves for the record parts. -/
def reservedKeys : List String := ["severity", "time", "caller", "message", "stacktrace"]

/-- A sink whose flush succeeds, for concrete instantiations. -/
def okSink : Sink := ⟨none⟩

/-- A concrete production-style core over `okSink`. -/
def sampleCore : Core := newCore okSink DefaultEncoderConfig infoLevel

/-- Every key of an encoded payload is a reserved key, a sticky-context key,
or a call-site field key. -/
theorem jsonObject_keys_subset (enc : Encoder) (s : String) (ent : Entry)
    (fields : List Field) :
    (enc.jsonObject s ent fields).map Prod.fst
      ⊆ reservedKeys ++ enc.context.map Field.key ++ fields.map Field.key := by
  intro a ha
  rw [List.mem_append, List.mem_append]
  cases hc : ent.caller <;> by_cases hst : ent.stack = "" <;>
    simp only [Encoder.jsonObject, hc, hst, reservedKeys, if_pos, if_neg,
      ite_true, ite_false, List.append_nil, List.map_append, List.mem_append,
      List.map_cons, List.map_nil, List.mem_cons, List.not_mem_nil, or_false,
      List.map_map, List.mem_map, Function.comp, not_false_eq_true] at ha ⊢ <;>
    aesop

/-- Every sticky-context field and every call-site field appears, key and
value, in the encoded payload. -/
theorem jsonObject_fields_flattened (enc : Encoder) (s : String) (ent : Entry)
    (fields : List Field) :
    (enc.context ++ fields).map (fun f => (f.key, f.value))
      ⊆ enc.jsonObject s ent fields := by
  intro a ha
  simp only [List.mem_map, List.mem_append] at ha
  obtain ⟨f, hf, rfl⟩ := ha
  unfold Encoder.jsonObject
  rcases hf with hf | hf
  · exact List.mem_append_left _ (List.mem_append_left _
      (List.mem_append_right _ (List.mem_map_of_mem _ hf)))
  · exact List.mem_append_left _
      (List.mem_append_right _ (List.mem_map_of_mem _ hf))

/-- A successful `EncodeEntry` result is the JSON object for the level's
severity text. -/
theorem EncodeEntry_ok (enc : Encoder) (ent : Entry) (fields : List Field)
    (p : List (String × String))
    (h : enc.EncodeEntry ent fields = some (Except.ok p)) :
    ∃ s, encodeLevel ent.level = some s ∧ p = enc.jsonObject s ent fields := by
  unfold Encoder.EncodeEntry at h
  cases hfail : enc.fail ent fields with
  | some e => rw [hfail] at h; simp at h
  | none =>
    rw [hfail] at h
    cases hlev : encodeLevel ent.level with
    | none => rw [hlev] at h; simp at h
    | some s =>
      rw [hlev] at h
      simp at h
      exact ⟨s, rfl, h.symm⟩

/-- C1: when `EncodeEntry` returns an error, `Core.Write` returns that error
to its caller, performs no sink operation (no enqueue, no flush), and
terminates normally (no abort). -/
theorem Write_encode_error_short_circuits (c : Core) (ent : Entry)
    (fields : List Field) (e : String)
    (h : c.enc.EncodeEntry ent fields = some (Except.error e)) :
    c.Write ent fields = some (Except.error e, ([] : List SinkOp)) := by
  simp [Core.Write, h]

/-- Witness for C1: a core whose encoder reports an error on every record. -/
theorem Write_encode_error_short_circuits_witness :
    ({ out := okSink
       enc := { config := DefaultEncoderConfig, context := [], fail := fun _ _ => some "boom" }
       levelEnabler := infoLevel } : Core).Write ⟨infoLevel, 0, "m", none, ""⟩ []
      = some (Except.error "boom", ([] : List SinkOp)) :=
  Write_encode_error_short_circuits _ _ _ _ rfl

/-- C2: when encoding succeeds, a record strictly above Error is enqueued
and then flushed exactly once before returning, with any flush error
propagated (`Core.Sync` is the flush result); a record at Error or below is
enqueued with zero flush calls. -/
theorem Write_flush_policy (c : Core) (ent : Entry) (fields : List Field)
    (payload : List (String × String))
    (h : c.enc.EncodeEntry ent fields = some (Except.ok payload)) :
    (errorLevel < ent.level →
      c.Write ent fields
        = some (c.Sync,
            [SinkOp.log ⟨ent.time, toSeverity ent.level, payload⟩, SinkOp.flush]))
    ∧ (ent.level ≤ errorLevel →
      c.Write ent fields
        = some (Except.ok (),
            [SinkOp.log ⟨ent.time, toSeverity ent.level, payload⟩])) := by
  constructor
  · intro hl
    simp only [Core.Write, h, if_pos hl]
    cases hs : c.Sync <;> simp [hs]
  · intro hl
    simp only [Core.Write, h, if_neg (not_lt.mpr hl)]

/-- Witness for C2: a Fatal-level record through the sample core. -/
theorem Write_flush_policy_witness :
    (errorLevel < (5 : Int) →
      sampleCore.Write ⟨5, 0, "m", none, ""⟩ []
        = some (sampleCore.Sync,
            [SinkOp.log ⟨0, toSeverity 5,
              [("severity", "EMERGENCY"), ("time", "0"), ("message", "m")]⟩,
             SinkOp.flush]))
    ∧ ((5 : Int) ≤ errorLevel →
      sampleCore.Write ⟨5, 0, "m", none, ""⟩ []
        = some (Except.ok (),
            [SinkOp.log ⟨0, toSeverity 5,
              [("severity", "EMERGENCY"), ("time", "0"), ("message", "m")]⟩])) :=
  Write_flush_policy sampleCore ⟨5, 0, "m", none, ""⟩ [] _ rfl

/-- C4: `Core.Enabled lvl` holds exactly when `lvl` is at least the
configured minimum level, and `Core.Check` adds the core to the checked
entry exactly when the record's level is enabled, returning the checked
entry unchanged otherwise — without touching the encoder or the sink
(`Check` only reads the level enabler). -/
theorem Enabled_Check_spec (c : Core) (ent : Entry) (ce : CheckedEntry) :
    (c.Enabled ent.level = true ↔ c.levelEnabler ≤ ent.level)
    ∧ (c.Enabled ent.level = true → c.Check ent ce = ce.AddCore ent c)
    ∧ (c.Enabled ent.level = false → c.Check ent ce = ce)
    ∧ ce.AddCore ent c ≠ ce := by
  refine ⟨by simp [Core.Enabled], ?_, ?_, ?_⟩
  · intro h; simp [Core.Check, h]
  · intro h; simp [Core.Check, h]
  · intro hcontra
    have hlen := congrArg List.length hcontra
    simp [CheckedEntry.AddCore] at hlen

/-- Witness for C4: an Info record against the sample core and an empty
checked entry. -/
theorem Enabled_Check_spec_witness :
    (sampleCore.Enabled (0 : Int) = true ↔ sampleCore.levelEnabler ≤ (0 : Int))
    ∧ (sampleCore.Enabled (0 : Int) = true →
        sampleCore.Check ⟨0, 0, "m", none, ""⟩ []
          = CheckedEntry.AddCore [] ⟨0, 0, "m", none, ""⟩ sampleCore)
    ∧ (sampleCore.Enabled (0 : Int) = false →
        sampleCore.Check ⟨0, 0, "m", none, ""⟩ [] = [])
    ∧ CheckedEntry.AddCore [] ⟨0, 0, "m", none, ""⟩ sampleCore ≠ [] :=
  Enabled_Check_spec sampleCore ⟨0, 0, "m", none, ""⟩ []

/-- C5: `Core.With` returns a derived core with the same sink handle and
level enabler, whose encoder is a clone of the receiver's with the new
fields appended to the sticky context, and the receiver is unchanged (the
model is pure): a key carried only by the new fields never appears in a
payload encoded through the original core, and every new field appears,
key and value, in every payload encoded through the derived core. -/
theorem With_clone_spec (c : Core) (fs : List Field) (ent : Entry)
    (callFields : List Field) (k : String) (f : Field)
    (pA pB : List (String × String))
    (hf : f ∈ fs)
    (hkctx : k ∉ c.enc.context.map Field.key)
    (hkcall : k ∉ callFields.map Field.key)
    (hkres : k ∉ reservedKeys)
    (hA : c.enc.EncodeEntry ent callFields = some (Except.ok pA))
    (hB : (c.With fs).enc.EncodeEntry ent callFields = some (Except.ok pB)) :
    (c.With fs).out = c.out
    ∧ (c.With fs).levelEnabler = c.levelEnabler
    ∧ (c.With fs).enc.context = c.enc.context ++ fs
    ∧ (c.With fs).enc.config = c.enc.config
    ∧ (c.With fs).enc.fail = c.enc.fail
    ∧ k ∉ pA.map Prod.fst
    ∧ (f.key, f.value) ∈ pB := by
  refine ⟨rfl, rfl, rfl, rfl, rfl, ?_, ?_⟩
  · obtain ⟨s, _, hp⟩ := EncodeEntry_ok _ _ _ _ hA
    intro hmem
    rw [hp] at hmem
    have hin := jsonObject_keys_subset c.enc s ent callFields hmem
    rw [List.mem_append, List.mem_append] at hin
    rcases hin with (hr | hctx2) | hcall2
    · exact hkres hr
    · exact hkctx hctx2
    · exact hkcall hcall2
  · obtain ⟨s, _, hp⟩ := EncodeEntry_ok _ _ _ _ hB
    have hmem2 : (f.key, f.value)
        ∈ ((c.With fs).enc.context ++ callFields).map (fun g => (g.key, g.value)) := by
      refine List.mem_map_of_mem _ ?_
      show f ∈ (c.enc.context ++ fs) ++ callFields
      exact List.mem_append_left _ (List.mem_append_right _ hf)
    rw [hp]
    exact jsonObject_fields_flattened (c.With fs).enc s ent callFields hmem2

/-- Witness for C5: deriving with the field `k := "v"` and encoding an Info
record through both cores. -/
theorem With_clone_spec_witness :
    ((sampleCore.With [⟨"k", "v"⟩]).out = sampleCore.out
    ∧ (sampleCore.With [⟨"k", "v"⟩]).levelEnabler = sampleCore.levelEnabler
    ∧ (sampleCore.With [⟨"k", "v"⟩]).enc.context
        = sampleCore.enc.context ++ [⟨"k", "v"⟩]
    ∧ (sampleCore.With [⟨"k", "v"⟩]).enc.config = sampleCore.enc.config
    ∧ (sampleCore.With [⟨"k", "v"⟩]).enc.fail = sampleCore.enc.fail
    ∧ "k" ∉ ([("severity", "INFO"), ("time", "0"),
              ("message", "m")] : List (String × String)).map Prod.fst
    ∧ (("k" : String), ("v" : String))
        ∈ ([("severity", "INFO"), ("time", "0"), ("message", "m"),
            ("k", "v")] : List (String × String))) :=
  With_clone_spec sampleCore [⟨"k", "v"⟩] ⟨0, 0, "m", none, ""⟩ [] "k" ⟨"k", "v"⟩
    [("severity", "INFO"), ("time", "0"), ("message", "m")]
    [("severity", "INFO"), ("time", "0"), ("message", "m"), ("k", "v")]
    (by decide) (by decide) (by decide) (by decide) rfl rfl

/-- C9: encoding "Hello, world!" at Info with a caller, no stack and no
fields yields a payload whose keys are exactly severity, time, caller and
message (no stacktrace), with severity text "INFO" and the message intact;
in general every payload key is one of the five reserved key names or a
sticky/call-site field key, and all sticky and call-site fields are
flattened, key and value, into the same top-level object. -/
theorem newEncoder_payload_shape (cfg : EncoderConfig) (t : Nat) (cal : String) :
    (∃ payload,
      (newEncoder cfg).EncodeEntry ⟨infoLevel, t, "Hello, world!", some cal, ""⟩ []
        = some (Except.ok payload)
      ∧ payload.map Prod.fst = ["severity", "time", "caller", "message"]
      ∧ ("severity", "INFO") ∈ payload
      ∧ ("message", "Hello, world!") ∈ payload
      ∧ "stacktrace" ∉ payload.map Prod.fst)
    ∧ (∀ (enc : Encoder) (s : String) (ent : Entry) (fields : List Field),
        (enc.jsonObject s ent fields).map Prod.fst
          ⊆ reservedKeys ++ enc.context.map Field.key ++ fields.map Field.key)
    ∧ (∀ (enc : Encoder) (s : String) (ent : Entry) (fields : List Field),
        (enc.context ++ fields).map (fun f => (f.key, f.value))
          ⊆ enc.jsonObject s ent fields) := by
  refine ⟨⟨[("severity", "INFO"), ("time", cfg.encodeTime t),
            ("caller", cfg.encodeCaller cal), ("message", "Hello, world!")],
           rfl, rfl, by simp, by simp, by simp⟩,
         jsonObject_keys_subset, jsonObject_fields_flattened⟩

/-- C3 (code bug): the severity delivered to the sink is computed by the
package-level `toSeverity`, not by the configuration's `levelToSeverity`
field — `New` drops that field, so a config mapping every level to
Emergency still delivers Info for an Info record. -/
theorem Write_ignores_configured_severity_mapper :
    (NewConfig DefaultEncoderConfig infoLevel
        (fun _ => Severity.emergency)).levelToSeverity infoLevel = Severity.emergency
    ∧ (New okSink (NewConfig DefaultEncoderConfig infoLevel
        (fun _ => Severity.emergency))).Write ⟨infoLevel, 0, "m", none, ""⟩ []
        = some (Except.ok (),
            [SinkOp.log ⟨0, Severity.info,
              [("severity", "INFO"), ("time", "0"), ("message", "m")]⟩])
    ∧ Severity.info ≠ Severity.emergency := by
  refine ⟨rfl, ?_, by decide⟩
  rfl

/-- C10: `NewDevelopment` builds from `NewProductionConfig`, exactly like
`NewProduction` — the two constructors agree on every sink handle, the
resulting minimum level is Info, and the Debug-gated `NewDevelopmentConfig`
preset is not what the development constructor uses. -/
theorem NewDevelopment_eq_NewProduction (out : Sink) :
    NewDevelopment out = NewProduction out
    ∧ NewDevelopment out = NewProductionConfig.Build out
    ∧ (NewDevelopment out).levelEnabler = infoLevel
    ∧ NewDevelopmentConfig.level = debugLevel
    ∧ (NewDevelopment out).levelEnabler ≠ NewDevelopmentConfig.level := by
  refine ⟨rfl, rfl, rfl, rfl, ?_⟩
  show infoLevel ≠ debugLevel
  decide

end Gclzap
